import Mathlib

/-!
The asynchronous, self-rotating file logger of `logs.go`.

A shallow embedding of `src/src/logs.go`.  The logger's own code is translated
function by function; what it calls in the Go standard library and in the
operating system is modelled explicitly:

* the file system is a table from path strings to contents, a set of
  directories and a table of open descriptors, with fault fields for the
  failures a kernel may report for reasons the tables do not show;
* the clock is a calendar time that is fixed while one operation runs;
* `fmt.Sprintf` is a parameter of every function that formats text;
* the mutex `mu` is left out: every operation below runs as one atomic step,
  which is what the lock gives the code it protects.
-/

namespace Services

/-! ## Text helpers -/

/-- Decimal digit for `n % 10`. -/
def digitChar (n : Nat) : Char :=
  match n % 10 with
  | 0 => '0' | 1 => '1' | 2 => '2' | 3 => '3' | 4 => '4'
  | 5 => '5' | 6 => '6' | 7 => '7' | 8 => '8' | _ => '9'

/-- Two decimal digits, zero padded (Go prints more digits above 99; calendar
fields never are). -/
def pad2 (n : Nat) : List Char := [digitChar (n / 10), digitChar n]

/-- Four decimal digits, zero padded (exact for years up to 9999, the range in
which `time.Parse` reads back what `Format` printed). -/
def pad4 (n : Nat) : List Char :=
  [digitChar (n / 1000), digitChar (n / 100), digitChar (n / 10), digitChar n]

/-- Six decimal digits, zero padded: the microseconds of a log header. -/
def pad6 (n : Nat) : List Char :=
  [digitChar (n / 100000), digitChar (n / 10000), digitChar (n / 1000),
   digitChar (n / 100), digitChar (n / 10), digitChar n]

/-! ## Calendar days and the clock -/

/-- A calendar day: the value `time.Parse(DateFormat, t.Format(DateFormat))`
keeps of an instant `t`. -/
structure Date where
  year : Nat
  month : Nat
  day : Nat
deriving DecidableEq, Repr

/-- A day as the calendar has it, in the range `DateFormat` round-trips. -/
def Date.valid (d : Date) : Prop :=
  d.year ≤ 9999 ∧ 1 ≤ d.month ∧ d.month ≤ 12 ∧ 1 ≤ d.day ∧ d.day ≤ 31

instance (d : Date) : Decidable d.valid := by
  unfold Date.valid; exact inferInstance

/-- Model of `t.After(u)` on two midnights: `t` is a later day than `u`. -/
def Date.After (t u : Date) : Bool :=
  decide (t.year > u.year) ||
  (decide (t.year = u.year) &&
    (decide (t.month > u.month) ||
      (decide (t.month = u.month) && decide (t.day > u.day))))

/-- Model of `d.Format(DateFormat)` with `DateFormat = "2006-01-02"`. -/
def Date.Format (d : Date) : String :=
  String.mk (pad4 d.year ++ '-' :: pad2 d.month ++ '-' :: pad2 d.day)

/-- A reading of the wall clock in local time. -/
structure Time where
  date : Date
  hour : Nat
  minute : Nat
  second : Nat
  micro : Nat
deriving DecidableEq, Repr

/-! ## `path/filepath` (Unix) -/

/-- Cut a path at every `/`. -/
def splitSlash : List Char → List (List Char)
  | [] => [[]]
  | c :: cs =>
    match splitSlash cs with
    | [] => [[]]
    | x :: xs => if c = '/' then [] :: x :: xs else (c :: x) :: xs

/-- One element of `Clean`, on the stack of elements kept so far (last kept
element first). -/
def cleanStep (rooted : Bool) (stack : List (List Char)) (el : List Char) :
    List (List Char) :=
  if el = [] ∨ el = ['.'] then stack
  else if el = ['.', '.'] then
    match stack with
    | top :: rest => if top = ['.', '.'] then el :: stack else rest
    | [] => if rooted then [] else [el]
  else el :: stack

/-- Put kept elements back together with `/` between them. -/
def joinSlash : List (List Char) → List Char
  | [] => []
  | [x] => x
  | x :: y :: rest => x ++ '/' :: joinSlash (y :: rest)

/-- Model of `filepath.Clean`. -/
def filepathClean (path : String) : String :=
  if path.data = [] then "."
  else
    let rooted := decide (path.data.head? = some '/')
    let body := joinSlash ((splitSlash path.data).foldl (cleanStep rooted) []).reverse
    if rooted then String.mk ('/' :: body)
    else if body = [] then "." else String.mk body

/-- Model of `filepath.Join(dir, name)`: from the first non-empty element on, the
elements joined by `/` and cleaned; `""` when both are empty. -/
def filepathJoin (dir name : String) : String :=
  if dir ≠ "" then filepathClean (dir ++ "/" ++ name)
  else if name ≠ "" then filepathClean name
  else ""

/-- Drop the slashes a reversed path starts with. -/
def dropSlashes : List Char → List Char
  | [] => []
  | c :: cs => if c = '/' then dropSlashes cs else c :: cs

/-- The characters of a reversed path up to its first `/`. -/
def takeElem : List Char → List Char
  | [] => []
  | c :: cs => if c = '/' then [] else c :: takeElem cs

/-- Model of `filepath.Base`. -/
def filepathBase (path : String) : String :=
  if path.data = [] then "."
  else
    let el := (takeElem (dropSlashes path.data.reverse)).reverse
    if el = [] then "/" else String.mk el

/-- What a reversed path keeps from its first `/` on. -/
def fromSlash : List Char → List Char
  | [] => []
  | c :: cs => if c = '/' then c :: cs else fromSlash cs

/-- Model of `filepath.Dir`. -/
def filepathDir (path : String) : String :=
  filepathClean (String.mk (fromSlash path.data.reverse).reverse)

/-! ## The operating system -/

/-- Error numbers the model tells apart. -/
inductive Errno
  | ENOENT | EEXIST | EACCES | EISDIR | EMFILE | ENOSPC | EINVAL | EBADF
deriving DecidableEq, Repr

/-- Text of an error number. -/
def Errno.msg : Errno → String
  | .ENOENT => "no such file or directory"
  | .EEXIST => "file exists"
  | .EACCES => "permission denied"
  | .EISDIR => "is a directory"
  | .EMFILE => "too many open files"
  | .ENOSPC => "no space left on device"
  | .EINVAL => "invalid argument"
  | .EBADF => "file already closed"

/-- An error of package `os`: the operation, the path(s) and the cause. -/
structure OSError where
  op : String
  path : String
  errno : Errno
deriving DecidableEq, Repr

/-- Model of `err.Error()`. -/
def OSError.text (e : OSError) : String :=
  e.op ++ " " ++ e.path ++ ": " ++ e.errno.msg

/-- An `*os.File`: the path it was opened at and whether it has been closed.
The logger closes its descriptor before it renames the file, so a descriptor it
has open names the file at that path. -/
structure FD where
  path : String
  closed : Bool
deriving DecidableEq, Repr

/-- The world outside the logger.  Paths are compared as written (no symbolic
links, one spelling per path). -/
structure World where
  /-- regular files: path to contents -/
  files : String → Option String
  /-- existing directories -/
  dirs : String → Bool
  /-- every `*os.File` made so far, by number -/
  fds : List FD
  /-- the wall clock -/
  now : Time
  /-- lines of the standard logger (standard error) -/
  stderr : List String
  /-- a failure the kernel reports for any rename (permissions, read-only
  file system, ...) -/
  renameFault : Option Errno
  /-- a failure the kernel reports for any open (descriptor limit, ...) -/
  openFault : Option Errno
  /-- a failure the kernel reports for any mkdir -/
  mkdirFault : Option Errno

/-- Point update of a table keyed by paths. -/
def setAt {α : Type} (m : String → α) (k : String) (v : α) : String → α :=
  fun p => if p = k then v else m p

/-- Why `os.Rename(old, new)` fails, if it does. -/
def renameCheck (w : World) (old new : String) : Option Errno :=
  match w.renameFault with
  | some e => some e
  | none =>
    if w.files old = none then some .ENOENT
    else if w.dirs new then some .EISDIR
    else if w.dirs (filepathDir new) = false then some .ENOENT
    else none

/-- Model of `os.Rename(old, new)`: the file at `old` becomes the file at `new`,
replacing what was there. -/
def osRename (w : World) (old new : String) : Except OSError World :=
  match renameCheck w old new with
  | some e => .error ⟨"rename", old ++ " " ++ new, e⟩
  | none => .ok { w with files := setAt (setAt w.files old none) new (w.files old) }

/-- Model of `os.OpenFile(path, O_RDWR|O_APPEND|O_CREATE, 0666)`: a new descriptor on
the file, which is created empty when absent. -/
def osOpenFile (w : World) (path : String) : Except OSError (World × Nat) :=
  match w.openFault with
  | some e => .error ⟨"open", path, e⟩
  | none =>
    if w.dirs path then .error ⟨"open", path, .EISDIR⟩
    else
      match w.files path with
      | some _ => .ok ({ w with fds := w.fds ++ [⟨path, false⟩] }, w.fds.length)
      | none =>
        if w.dirs (filepathDir path) then
          .ok ({ w with files := setAt w.files path (some ""),
                        fds := w.fds ++ [⟨path, false⟩] }, w.fds.length)
        else .error ⟨"open", path, .ENOENT⟩

/-- Model of `file.Close()` with the error dropped, as every caller in `logs.go` does;
on a nil or already closed `*os.File` nothing changes. -/
def osClose (w : World) (file : Option Nat) : World :=
  match file with
  | none => w
  | some h =>
    match w.fds.get? h with
    | none => w
    | some fd => { w with fds := w.fds.set h { fd with closed := true } }

/-- Model of `file.Write(data)` in append mode, with the error dropped: nothing is
written through a closed descriptor. -/
def osWrite (w : World) (h : Nat) (data : String) : World :=
  match w.fds.get? h with
  | none => w
  | some fd =>
    if fd.closed then w
    else
      match w.files fd.path with
      | none => w
      | some c => { w with files := setAt w.files fd.path (some (c ++ data)) }

/-- Model of `os.Stat(path)`: the error, if any. -/
def osStat (w : World) (path : String) : Option OSError :=
  if w.dirs path || (w.files path).isSome then none
  else some ⟨"stat", path, .ENOENT⟩

/-- Model of `os.IsExist(err)`. -/
def osIsExist (e : OSError) : Bool :=
  decide (e.errno = .EEXIST)

/-- Model of `os.Mkdir(path, 0755)`. -/
def osMkdir (w : World) (path : String) : Except OSError World :=
  match w.mkdirFault with
  | some e => .error ⟨"mkdir", path, e⟩
  | none =>
    if w.dirs path || (w.files path).isSome then .error ⟨"mkdir", path, .EEXIST⟩
    else if w.dirs (filepathDir path) then .ok { w with dirs := setAt w.dirs path true }
    else .error ⟨"mkdir", path, .ENOENT⟩


/-! ## Package `log` -/

/-- A `*log.Logger` made by `log.New(file, prefix, log.LstdFlags|log.Lmicroseconds)`. -/
structure Logger where
  out : Nat
  prefixStr : String
deriving DecidableEq, Repr

/-- The date and time a logger with `LstdFlags|Lmicroseconds` puts before a
line: `2006/01/02 15:04:05.000000 `. -/
def stdHeader (t : Time) : String :=
  String.mk (pad4 t.date.year ++ '/' :: pad2 t.date.month ++ '/' :: pad2 t.date.day ++
    ' ' :: pad2 t.hour ++ ':' :: pad2 t.minute ++ ':' :: pad2 t.second ++
    '.' :: pad6 t.micro ++ [' '])

/-- The line feed `Output` adds to text that does not end in one. -/
def lineEnd (s : String) : String :=
  if s.data.getLast? = some '\n' then "" else "\n"

/-- Model of `lg.Output(2, s)` on a non-nil logger, the error dropped: one write of
prefix, header, text and line end. -/
def Logger.Output (w : World) (lg : Logger) (s : String) : World :=
  osWrite w lg.out (lg.prefixStr ++ stdHeader w.now ++ s ++ lineEnd s)

/-- The header of the standard logger (`LstdFlags`): `2006/01/02 15:04:05 `. -/
def plainHeader (t : Time) : String :=
  String.mk (pad4 t.date.year ++ '/' :: pad2 t.date.month ++ '/' :: pad2 t.date.day ++
    ' ' :: pad2 t.hour ++ ':' :: pad2 t.minute ++ ':' :: pad2 t.second ++ [' '])

/-- Model of `log.Println(a, b)` of the standard logger: a line on standard error. -/
def logPrintln (w : World) (a b : String) : World :=
  { w with stderr := w.stderr ++ [plainHeader w.now ++ a ++ " " ++ b ++ "\n"] }

/-! ## Data model of `logs.go` -/

/-- Model of `type LEVEL byte` with its five constants. -/
inductive LEVEL
  | TRACE | INFO | WARN | ERROR | OFF
deriving DecidableEq, Repr

/-- The byte `iota` gives each constant. -/
def LEVEL.val : LEVEL → Nat
  | .TRACE => 0
  | .INFO => 1
  | .WARN => 2
  | .ERROR => 3
  | .OFF => 4

/-- Model of `LoggerConf`. -/
structure LoggerConf where
  FileDir : String
  FileName : String
  Prefix : String
  Level : String
deriving DecidableEq, Repr

/-- A buffered `chan string`: what is queued, the capacity, and whether
`close` has been called. -/
structure Chan where
  buf : List String
  cap : Nat
  closed : Bool
deriving DecidableEq, Repr

/-- Model of `FileLogger` (without `mu`).  `date` is the tracked day `*f.date`,
`logFile` the number of the `*os.File` or `none` for nil, `lg` the line
writer or `none` for nil. -/
structure FileLogger where
  fileDir : String
  fileName : String
  prefixStr : String
  date : Date
  logFile : Option Nat
  lg : Option Logger
  logLevel : LEVEL
  logChan : Chan
deriving DecidableEq, Repr

/-- How a call ends: it returns, it panics, or it waits on the channel. -/
inductive Res (α : Type)
  | ok (a : α)
  | panic
  | blocks
deriving DecidableEq, Repr

/-- Model of `ch <- s`: panics on a closed channel, waits while the buffer is full. -/
def chanSend (c : Chan) (s : String) : Res Chan :=
  if c.closed then .panic
  else if c.buf.length < c.cap then .ok { c with buf := c.buf ++ [s] }
  else .blocks

/-- What `<-ch` does. -/
inductive Recv
  | value (s : String) (c : Chan)
  | waits
deriving DecidableEq, Repr

/-- Model of `<-ch`: the oldest queued string; on an empty channel the zero value once
the channel is closed, a wait before that. -/
def chanRecv (c : Chan) : Recv :=
  match c.buf with
  | s :: rest => .value s { c with buf := rest }
  | [] => if c.closed then .value "" c else .waits

/-! ## Rotation -/

/-- The day of the clock: `time.Parse(DateFormat, time.Now().Format(DateFormat))`. -/
def today (w : World) : Date := w.now.date

/-- Model of `logFile := filepath.Join(f.fileDir, f.fileName)`. -/
def logFilePath (f : FileLogger) : String := filepathJoin f.fileDir f.fileName

/-- Model of `logFileBak := logFile + "." + f.date.Format(DateFormat)`. -/
def logFileBakPath (f : FileLogger) : String :=
  logFilePath f ++ "." ++ f.date.Format

/-- Model of `isMustSplit`: the clock's day is after the tracked day. -/
def isMustSplit (w : World) (f : FileLogger) : Bool :=
  (today w).After f.date

/-- Model of `isExistOrCreate`: make the directory when `Stat` fails; a failed `Mkdir`
is only logged. -/
def isExistOrCreate (w : World) (f : FileLogger) : World :=
  match osStat w f.fileDir with
  | none => w
  | some err =>
    if !osIsExist err then
      match osMkdir w f.fileDir with
      | .ok w1 => w1
      | .error mkdirErr => logPrintln w "Create dir failed, error: " mkdirErr.text
    else w

/-- Model of `split`: close the descriptor, rename the active file to its dated name,
set the tracked day to the clock's day, open a fresh active file and bind a
new line writer to it.  Returns the world, the logger and `err`. -/
def split (w : World) (f : FileLogger) : World × FileLogger × Option OSError :=
  let logFile := logFilePath f
  let logFileBak := logFileBakPath f
  let w0 := if f.logFile ≠ none then osClose w f.logFile else w
  match osRename w0 logFile logFileBak with
  | .error err => (w0, f, some err)
  | .ok w1 =>
    let f1 := { f with date := today w1 }
    match osOpenFile w1 logFile with
    | .error err => (w1, { f1 with logFile := none }, some err)
    | .ok (w2, h) =>
      (w2, { f1 with logFile := some h, lg := some ⟨h, f1.prefixStr⟩ }, none)

/-- The switch of `BootLogger` on `conf.Level`. -/
def bootLevel (level : String) : LEVEL :=
  match level with
  | "off" => .OFF
  | "trace" => .TRACE
  | "warn" => .WARN
  | "error" => .ERROR
  | _ => .INFO

/-- Model of `BootLogger` on a resolved configuration.  `fileLog` is the global before
the call; the result is the world, the global after the call and `err`.  The
two goroutines it starts are `logWriter` and `fileMonitorTick` below. -/
def BootLogger (w : World) (fileLog : Option FileLogger) (conf : LoggerConf) :
    World × Option FileLogger × Option OSError :=
  let f : FileLogger :=
    { fileDir := conf.FileDir, fileName := conf.FileName, prefixStr := conf.Prefix,
      date := today w, logFile := none, lg := none,
      logLevel := bootLevel conf.Level, logChan := ⟨[], 5000, false⟩ }
  if isMustSplit w f then
    match split w f with
    | (w1, _, some err) => (w1, fileLog, some err)
    | (w1, f1, none) => (w1, some f1, none)
  else
    let w1 := isExistOrCreate w f
    match osOpenFile w1 (filepathJoin f.fileDir f.fileName) with
    | .error err => (w1, fileLog, some err)
    | .ok (w2, h) =>
      (w2, some { f with logFile := some h, lg := some ⟨h, f.prefixStr⟩ }, none)

/-- Model of `CloseLogger`: nothing on a nil global; otherwise close the channel
(a panic when it is closed already), set `lg` to nil, close the file. -/
def CloseLogger (w : World) (fileLog : Option FileLogger) : Res (World × Option FileLogger) :=
  match fileLog with
  | none => .ok (w, none)
  | some g =>
    if g.logChan.closed then .panic
    else
      .ok (osClose w g.logFile,
           some { g with logChan := { g.logChan with closed := true }, lg := none })

/-- How the consumer goroutine stands after some iterations. -/
inductive Exit
  | recovered
  | waiting
  | running
deriving DecidableEq, Repr

/-- Model of `logWriter`, at most `fuel` iterations of its loop: receive a string and
write it through `f.lg`.  A nil `f.lg` panics; the deferred `recover` then
ends the goroutine (`recovered`).  `waiting`: the loop waits on the empty open
channel.  `running`: the iterations allowed are used up. -/
def logWriter : Nat → World → FileLogger → World × FileLogger × Exit
  | 0, w, f => (w, f, .running)
  | fuel + 1, w, f =>
    match chanRecv f.logChan with
    | .waits => (w, f, .waiting)
    | .value str c =>
      match f.lg with
      | none => (w, { f with logChan := c }, .recovered)
      | some lg => logWriter fuel (lg.Output w str) { f with logChan := c }

/-! ## The leveled calls -/

/-- An operand of a formatting call. -/
inductive Value
  | str (s : String)
  | int (n : Int)
  | err (e : OSError)
deriving DecidableEq, Repr

/-- One entry of the call stack: file and line of the call in progress there. -/
structure Frame where
  file : String
  line : Nat
deriving DecidableEq, Repr

/-- Model of `runtime.Caller(skip)` on the stack of the running goroutine, innermost
frame first (frame 0 is the function that calls `runtime.Caller`): file and
line of frame `skip`, or `""` and `0` when the stack is not that deep. -/
def runtimeCaller (stack : List Frame) (skip : Nat) : String × Nat :=
  match stack.get? skip with
  | some fr => (fr.file, fr.line)
  | none => ("", 0)

/-- The source file of the methods below, as the compiler recorded it. -/
def logsGo : String := "logs.go"

/-- Hand a string to `fileLog.logChan`. -/
def enqueue (g : FileLogger) (s : String) : Res FileLogger :=
  match chanSend g.logChan s with
  | .ok c => .ok { g with logChan := c }
  | .panic => .panic
  | .blocks => .blocks

/-- Model of `Trace(format, v...)`.  `sprintf` is `fmt.Sprintf`, `fileLog` the global
(the receiver is not used by the method), `callers` the stack at the call,
the frame holding the call first.  A nil `fileLog` panics. -/
def Trace (sprintf : String → List Value → String) (fileLog : Option FileLogger)
    (callers : List Frame) (format : String) (v : List Value) : Res FileLogger :=
  let (file, line) := runtimeCaller (⟨logsGo, 215⟩ :: callers) 2
  match fileLog with
  | none => .panic
  | some g =>
    if g.logLevel.val ≤ LEVEL.TRACE.val then
      enqueue g (sprintf "%v:%v]" [.str (sprintf "[TRACE] [" [] ++ filepathBase file), .int line]
        ++ sprintf (" " ++ format) v)
    else .ok g

/-- Model of `Info(format, v...)`. -/
def Info (sprintf : String → List Value → String) (fileLog : Option FileLogger)
    (callers : List Frame) (format : String) (v : List Value) : Res FileLogger :=
  let (file, line) := runtimeCaller (⟨logsGo, 223⟩ :: callers) 1
  match fileLog with
  | none => .panic
  | some g =>
    if g.logLevel.val ≤ LEVEL.INFO.val then
      enqueue g (sprintf "%v:%v]" [.str (sprintf "[INFO] [" [] ++ filepathBase file), .int line]
        ++ sprintf (" " ++ format) v)
    else .ok g

/-- Model of `Warn(format, v...)`. -/
def Warn (sprintf : String → List Value → String) (fileLog : Option FileLogger)
    (callers : List Frame) (format : String) (v : List Value) : Res FileLogger :=
  let (file, line) := runtimeCaller (⟨logsGo, 231⟩ :: callers) 1
  match fileLog with
  | none => .panic
  | some g =>
    if g.logLevel.val ≤ LEVEL.WARN.val then
      enqueue g (sprintf "%v:%v]" [.str (sprintf "[WARN] [" [] ++ filepathBase file), .int line]
        ++ sprintf (" " ++ format) v)
    else .ok g

/-- Model of `Error(format, v...)`. -/
def Error (sprintf : String → List Value → String) (fileLog : Option FileLogger)
    (callers : List Frame) (format : String) (v : List Value) : Res FileLogger :=
  let (file, line) := runtimeCaller (⟨logsGo, 239⟩ :: callers) 1
  match fileLog with
  | none => .panic
  | some g =>
    if g.logLevel.val ≤ LEVEL.ERROR.val then
      enqueue g (sprintf "%v:%v]" [.str (sprintf "[ERROR] [" [] ++ filepathBase file), .int line]
        ++ sprintf (" " ++ format) v)
    else .ok g

/-- One tick of `fileMonitor` on the booted logger (the receiver and the
global are the same object): rotate when the day has changed and report a
failure through `Error`.  A panic in `Error` is recovered and ends the
goroutine. -/
def fileMonitorTick (sprintf : String → List Value → String) (w : World) (f : FileLogger) :
    World × FileLogger × Exit :=
  if isMustSplit w f then
    match split w f with
    | (w1, f1, some err) =>
      match Error sprintf (some f1) [⟨logsGo, 180⟩] "Log split error: %v\n" [.err err] with
      | .ok f2 => (w1, f2, .running)
      | .panic => (w1, f1, .recovered)
      | .blocks => (w1, f1, .waiting)
    | (w1, f1, none) => (w1, f1, .running)
  else (w, f, .running)

/-! ## The four methods as one family -/

/-- The leveled methods. -/
inductive Method
  | trace | info | warn | error
deriving DecidableEq, Repr

/-- The record level of a method. -/
def Method.level : Method → LEVEL
  | .trace => .TRACE
  | .info => .INFO
  | .warn => .WARN
  | .error => .ERROR

/-- The tag a method writes. -/
def Method.tag : Method → String
  | .trace => "TRACE"
  | .info => "INFO"
  | .warn => "WARN"
  | .error => "ERROR"

/-- Call a method. -/
def Method.call (m : Method) (sprintf : String → List Value → String)
    (fileLog : Option FileLogger) (callers : List Frame) (format : String)
    (v : List Value) : Res FileLogger :=
  match m with
  | .trace => Trace sprintf fileLog callers format v
  | .info => Info sprintf fileLog callers format v
  | .warn => Warn sprintf fileLog callers format v
  | .error => Error sprintf fileLog callers format v

/-- The frame whose file and line a method renders: the one `runtime.Caller`
returns at the method's `skip`. -/
def Method.captured (m : Method) (callers : List Frame) : String × Nat :=
  match m with
  | .trace => runtimeCaller (⟨logsGo, 215⟩ :: callers) 2
  | .info => runtimeCaller (⟨logsGo, 223⟩ :: callers) 1
  | .warn => runtimeCaller (⟨logsGo, 231⟩ :: callers) 1
  | .error => runtimeCaller (⟨logsGo, 239⟩ :: callers) 1

/-- File and line of the immediate caller of a method: the frame that holds
the call. -/
def callSite (callers : List Frame) : String × Nat :=
  match callers with
  | fr :: _ => (fr.file, fr.line)
  | [] => ("", 0)

/-! ## `fmt.Sprintf` -/

/-- What the logger needs of `fmt.Sprintf`: a format without `%` is copied, the
location format prints a string and an integer with `%v`, and a leading space
of the format is copied in front of the rest. -/
structure SprintfLaws (sprintf : String → List Value → String) : Prop where
  literal : ∀ s : String, '%' ∉ s.data → sprintf s [] = s
  location : ∀ (a : String) (n : Nat),
    sprintf "%v:%v]" [.str a, .int n] = a ++ ":" ++ toString n ++ "]"
  leadingSpace : ∀ (format : String) (v : List Value),
    sprintf (" " ++ format) v = " " ++ sprintf format v

/-- How `%v` prints an operand. -/
def Value.text : Value → String
  | .str s => s
  | .int n => toString n
  | .err e => e.text

/-- A formatter for the directives `%v` and `%%`: text is copied, `%v` prints
the next operand (`%!v(MISSING)` when there is none), other directives are
copied as they stand. -/
def miniFormat : List Char → List Value → List Char
  | [], _ => []
  | [c], _ => [c]
  | c :: d :: rest, args =>
    if c = '%' then
      if d = '%' then '%' :: miniFormat rest args
      else if d = 'v' then
        match args with
        | a :: more => a.text.data ++ miniFormat rest more
        | [] => "%!v(MISSING)".data ++ miniFormat rest []
      else c :: d :: miniFormat rest args
    else c :: miniFormat (d :: rest) args

/-- The formatter `miniFormat` on strings; it agrees with `fmt.Sprintf` on
formats whose directives are `%v` and `%%` and that have an operand for each
`%v` and no more. -/
def miniSprintf (format : String) (v : List Value) : String :=
  String.mk (miniFormat format.data v)

/-! ## Worked inputs -/

/-- A clock reading on 2 January 2024. -/
def exNow : Time := ⟨⟨2024, 1, 2⟩, 10, 0, 0, 5⟩

/-- A logger booted on 2 January 2024 with level `warn`; its descriptor 0 is
open on the active file. -/
def exLogger : FileLogger :=
  { fileDir := "logs", fileName := "app.log", prefixStr := "", date := ⟨2024, 1, 2⟩,
    logFile := some 0, lg := some ⟨0, ""⟩, logLevel := .WARN,
    logChan := ⟨[], 5000, false⟩ }

/-- A call stack: the call is at `a.go:10`, inside a function called from
`b.go:20`. -/
def exCallers : List Frame := [⟨"/srv/app/a.go", 10⟩, ⟨"/srv/app/b.go", 20⟩]

/-- A world on 2 January 2024 whose directory `logs` holds the active file
with the given contents, open as descriptor 0. -/
def exWorld (contents : String) : World :=
  { files := fun p => if p = "logs/app.log" then some contents else none
    dirs := fun p => p == "." || p == "logs"
    fds := [⟨"logs/app.log", false⟩]
    now := exNow
    stderr := []
    renameFault := none
    openFault := none
    mkdirFault := none }

/-- The world before a boot on 2 January 2024: the active file is there from
the day before, nothing is open. -/
def exWorldBeforeBoot : World :=
  { exWorld "old content" with fds := [] }

/-- The logger `exLogger` with tracked day 1 January 2024. -/
def exStaleLogger : FileLogger :=
  { exLogger with date := ⟨2024, 1, 1⟩ }

/-- The world `exWorld` when the process has used up its descriptors: every
further open fails. -/
def exWorldNoDescriptors (contents : String) : World :=
  { exWorld contents with openFault := some .EMFILE }

/-- The world `exWorld` on a read-only file system: every rename fails. -/
def exWorldNoRename (contents : String) : World :=
  { exWorld contents with renameFault := some .EACCES }

/-- The logger `exLogger` with one record in its queue. -/
def exQueuedLogger : FileLogger :=
  { exLogger with logChan := ⟨["r1"], 5000, false⟩ }

/-! ## Scenarios -/

/-- Shutdown followed by the consumer: `CloseLogger` runs to its end, then
`logWriter` runs for at most `fuel` iterations. -/
def closeThenDrain (fuel : Nat) (w : World) (g : FileLogger) :
    Option (World × FileLogger × Exit) :=
  match CloseLogger w (some g) with
  | .ok (w1, some g1) => some (logWriter fuel w1 g1)
  | _ => none

/-- Two calls of `split` one after the other, the clock unchanged. -/
def splitTwice (w : World) (f : FileLogger) : World × FileLogger × Option OSError :=
  Services.split (Services.split w f).1 (Services.split w f).2.1

/-! ## Lemmas on the model -/

theorem Date.After_self (d : Date) : d.After d = false := by
  simp [Date.After]

theorem bootLevel_eq (s : String) :
    bootLevel s =
      if s = "off" then LEVEL.OFF else if s = "trace" then LEVEL.TRACE
      else if s = "warn" then LEVEL.WARN else if s = "error" then LEVEL.ERROR
      else LEVEL.INFO := by
  unfold bootLevel
  split <;> simp_all

theorem enqueue_ok (g : FileLogger) (s : String) (hopen : g.logChan.closed = false)
    (hroom : g.logChan.buf.length < g.logChan.cap) :
    enqueue g s = .ok { g with logChan := { g.logChan with buf := g.logChan.buf ++ [s] } } := by
  simp [enqueue, chanSend, hopen, hroom]

theorem miniFormat_literal (s : List Char) (h : '%' ∉ s) : miniFormat s [] = s := by
  induction s with
  | nil => rfl
  | cons c rest ih =>
    have hc : c ≠ '%' := fun e => h (by simp [e])
    have hr : '%' ∉ rest := fun e => h (by simp [e])
    cases rest with
    | nil => rfl
    | cons d rest2 =>
      rw [miniFormat, if_neg hc, ih hr]

theorem miniFormat_space (s : List Char) (v : List Value) :
    miniFormat (' ' :: s) v = ' ' :: miniFormat s v := by
  cases s with
  | nil => rfl
  | cons d rest => simp [miniFormat]

theorem miniSprintf_laws : SprintfLaws miniSprintf where
  literal := by
    intro s h
    simp [miniSprintf, miniFormat_literal s.data h]
  location := by
    intro a n
    have hn : toString (n : Int) = toString n := rfl
    apply String.ext
    simp [miniSprintf, miniFormat, Value.text, hn]
  leadingSpace := by
    intro format v
    apply String.ext
    simp [miniSprintf, miniFormat_space]

theorem leveled_line (sprintf : String → List Value → String) (laws : SprintfLaws sprintf)
    (tag file format : String) (line : Nat) (v : List Value) (htag : '%' ∉ tag.data) :
    sprintf "%v:%v]" [.str (sprintf ("[" ++ tag ++ "] [") [] ++ filepathBase file), .int line]
        ++ sprintf (" " ++ format) v
      = "[" ++ tag ++ "] [" ++ filepathBase file ++ ":" ++ toString line ++ "] "
        ++ sprintf format v := by
  rw [laws.literal _ (by simpa using htag), laws.location, laws.leadingSpace]
  apply String.ext
  simp

/-- A call whose level passes the filter is one send on the channel. -/
theorem call_of_pass (sprintf : String → List Value → String) (m : Method) (g : FileLogger)
    (callers : List Frame) (format : String) (v : List Value)
    (hpass : g.logLevel.val ≤ m.level.val) :
    m.call sprintf (some g) callers format v =
      enqueue g (sprintf "%v:%v]"
          [.str (sprintf ("[" ++ m.tag ++ "] [") [] ++ filepathBase (m.captured callers).1),
           .int (m.captured callers).2]
        ++ sprintf (" " ++ format) v) := by
  cases m <;> simp only [Method.level] at hpass <;>
    simp only [Method.call, Trace, Info, Warn, Error, Method.captured, Method.tag, hpass,
      if_true] <;> rfl

/-- A call whose level fails the filter changes nothing. -/
theorem call_of_fail (sprintf : String → List Value → String) (m : Method) (g : FileLogger)
    (callers : List Frame) (format : String) (v : List Value)
    (hfail : ¬ g.logLevel.val ≤ m.level.val) :
    m.call sprintf (some g) callers format v = .ok g := by
  cases m <;> simp only [Method.level] at hfail <;>
    simp only [Method.call, Trace, Info, Warn, Error, hfail, if_false]

theorem bak_ne (p s : String) : p ++ "." ++ s ≠ p := by
  intro h
  have hl := congrArg String.length h
  simp [String.length_append] at hl
  have : ".".length = 1 := rfl
  omega

theorem osClose_files (w : World) (h : Option Nat) : (osClose w h).files = w.files := by
  unfold osClose
  split
  · rfl
  · split <;> rfl

theorem osClose_dirs (w : World) (h : Option Nat) : (osClose w h).dirs = w.dirs := by
  unfold osClose
  split
  · rfl
  · split <;> rfl

theorem osClose_now (w : World) (h : Option Nat) : (osClose w h).now = w.now := by
  unfold osClose
  split
  · rfl
  · split <;> rfl

theorem osClose_renameFault (w : World) (h : Option Nat) :
    (osClose w h).renameFault = w.renameFault := by
  unfold osClose
  split
  · rfl
  · split <;> rfl

theorem osClose_openFault (w : World) (h : Option Nat) :
    (osClose w h).openFault = w.openFault := by
  unfold osClose
  split
  · rfl
  · split <;> rfl

theorem osClose_fds_length (w : World) (h : Option Nat) :
    (osClose w h).fds.length = w.fds.length := by
  unfold osClose
  split
  · rfl
  · split
    · rfl
    · simp

theorem osRename_ok_inv {w w1 : World} {old new : String} (h : osRename w old new = .ok w1) :
    w1 = { w with files := setAt (setAt w.files old none) new (w.files old) } ∧
      renameCheck w old new = none := by
  unfold osRename at h
  split at h
  · cases h
  · rename_i hc
    injection h with h
    exact ⟨h.symm, hc⟩

theorem osRename_error_inv {w : World} {old new : String} {err : OSError}
    (h : osRename w old new = .error err) :
    ∃ e, renameCheck w old new = some e ∧ err = ⟨"rename", old ++ " " ++ new, e⟩ := by
  unfold osRename at h
  split at h
  · rename_i e hc
    injection h with h
    exact ⟨e, hc, h.symm⟩
  · cases h

theorem osOpenFile_absent_inv {w w2 : World} {path : String} {h : Nat}
    (habs : w.files path = none) (hop : osOpenFile w path = .ok (w2, h)) :
    w2 = { w with files := setAt w.files path (some ""), fds := w.fds ++ [⟨path, false⟩] } ∧
      h = w.fds.length ∧ w.openFault = none ∧ w.dirs path = false ∧
      w.dirs (filepathDir path) = true := by
  unfold osOpenFile at hop
  split at hop
  · cases hop
  · rename_i hf
    split at hop
    · cases hop
    · rename_i hd
      rw [habs] at hop
      simp only at hop
      split at hop
      · rename_i hdd
        injection hop with hop
        injection hop with h1 h2
        exact ⟨h1.symm, h2.symm, hf, by simpa using hd, hdd⟩
      · cases hop

theorem split_closes (w : World) (f : FileLogger) :
    (if f.logFile ≠ none then osClose w f.logFile else w) = osClose w f.logFile := by
  cases hf : f.logFile <;> simp [osClose]

theorem split_of_rename_error (w : World) (f : FileLogger) (err : OSError)
    (hren : osRename (osClose w f.logFile) (logFilePath f) (logFileBakPath f) = .error err) :
    Services.split w f = (osClose w f.logFile, f, some err) := by
  simp only [Services.split, split_closes, hren]

theorem split_of_open_error (w w1 : World) (f : FileLogger) (err : OSError)
    (hren : osRename (osClose w f.logFile) (logFilePath f) (logFileBakPath f) = .ok w1)
    (hop : osOpenFile w1 (logFilePath f) = .error err) :
    Services.split w f = (w1, { f with date := today w, logFile := none }, some err) := by
  have hnow : today w1 = today w := by
    rw [(osRename_ok_inv hren).1]
    simp [today, osClose_now]
  simp only [Services.split, split_closes, hren, hop, hnow]

theorem split_of_ok (w w1 w2 : World) (f : FileLogger) (h : Nat)
    (hren : osRename (osClose w f.logFile) (logFilePath f) (logFileBakPath f) = .ok w1)
    (hop : osOpenFile w1 (logFilePath f) = .ok (w2, h)) :
    Services.split w f =
      (w2, { f with date := today w, logFile := some h, lg := some ⟨h, f.prefixStr⟩ }, none) := by
  have hnow : today w1 = today w := by
    rw [(osRename_ok_inv hren).1]
    simp [today, osClose_now]
  simp only [Services.split, split_closes, hren, hop, hnow]

/-- The function `split` reports no error only when its rename and its open succeed. -/
theorem split_ok_inv (w : World) (f : FileLogger) (hok : (Services.split w f).2.2 = none) :
    ∃ w1 w2 h,
      osRename (osClose w f.logFile) (logFilePath f) (logFileBakPath f) = .ok w1 ∧
      osOpenFile w1 (logFilePath f) = .ok (w2, h) := by
  cases hren : osRename (osClose w f.logFile) (logFilePath f) (logFileBakPath f) with
  | error err =>
    rw [split_of_rename_error w f err hren] at hok
    cases hok
  | ok w1 =>
    cases hop : osOpenFile w1 (logFilePath f) with
    | error err =>
      rw [split_of_open_error w w1 f err hren hop] at hok
      cases hok
    | ok r =>
      exact ⟨w1, r.1, r.2, rfl, hop⟩

/-- What a successful `split` leaves: the old contents under the dated name, an
empty active file with a fresh open descriptor. -/
theorem split_ok_effect (w w1 w2 : World) (f : FileLogger) (h : Nat)
    (hren : osRename (osClose w f.logFile) (logFilePath f) (logFileBakPath f) = .ok w1)
    (hop : osOpenFile w1 (logFilePath f) = .ok (w2, h)) :
    w2.files = setAt (setAt (setAt w.files (logFilePath f) none) (logFileBakPath f)
        (w.files (logFilePath f))) (logFilePath f) (some "") ∧
      w2.fds = (osClose w f.logFile).fds ++ [⟨logFilePath f, false⟩] ∧
      h = w.fds.length ∧ w2.dirs = w.dirs ∧ w2.now = w.now ∧
      w2.renameFault = none ∧ w2.openFault = none ∧
      w.dirs (logFilePath f) = false ∧ w.dirs (filepathDir (logFilePath f)) = true ∧
      w.dirs (logFileBakPath f) = false ∧ w.dirs (filepathDir (logFileBakPath f)) = true := by
  obtain ⟨hw1, hchk⟩ := osRename_ok_inv hren
  have hne : logFilePath f ≠ logFileBakPath f := fun e => bak_ne _ _ e.symm
  have habs : w1.files (logFilePath f) = none := by
    rw [hw1]
    simp [setAt, hne]
  obtain ⟨hw2, hh, hof, hd, hdd⟩ := osOpenFile_absent_inv habs hop
  have hrf : w.renameFault = none ∧ w.dirs (logFileBakPath f) = false ∧
      w.dirs (filepathDir (logFileBakPath f)) = true := by
    unfold renameCheck at hchk
    rw [osClose_renameFault, osClose_files, osClose_dirs] at hchk
    split at hchk
    · cases hchk
    · rename_i hr
      split at hchk
      · cases hchk
      · split at hchk
        · cases hchk
        · rename_i hb
          split at hchk
          · cases hchk
          · rename_i hbd
            exact ⟨hr, by simpa using hb, by simpa using hbd⟩
  subst hw1
  simp only [osClose_dirs, osClose_openFault, osClose_fds_length] at hh hof hd hdd
  subst hw2
  refine ⟨?_, rfl, hh, ?_, ?_, ?_, ?_, hd, hdd, hrf.2.1, hrf.2.2⟩
  · simp only [osClose_files]
  · simp only [osClose_dirs]
  · simp only [osClose_now]
  · simp only [osClose_renameFault]
    exact hrf.1
  · simp only [osClose_openFault]
    exact hof

theorem digitChar_inj (a b : Nat) (h : digitChar a = digitChar b) : a % 10 = b % 10 := by
  unfold digitChar at h
  have ha := Nat.mod_lt a (by decide : 10 > 0)
  have hb := Nat.mod_lt b (by decide : 10 > 0)
  generalize a % 10 = x at *
  generalize b % 10 = y at *
  interval_cases x <;> interval_cases y <;> first | rfl | exact absurd h (by decide)

theorem digitChar_ne_slash (n : Nat) : digitChar n ≠ '/' := by
  unfold digitChar
  split <;> decide

theorem Date.Format_inj (a b : Date) (ha : a.valid) (hb : b.valid)
    (h : a.Format = b.Format) : a = b := by
  unfold Date.Format pad4 pad2 at h
  injection h with h
  simp only [List.cons_append, List.nil_append, List.cons.injEq, and_true, true_and] at h
  obtain ⟨h1, h2, h3, h4, h5, h6, h7, h8⟩ := h
  have e1 := digitChar_inj _ _ h1
  have e2 := digitChar_inj _ _ h2
  have e3 := digitChar_inj _ _ h3
  have e4 := digitChar_inj _ _ h4
  have e5 := digitChar_inj _ _ h5
  have e6 := digitChar_inj _ _ h6
  have e7 := digitChar_inj _ _ h7
  have e8 := digitChar_inj _ _ h8
  obtain ⟨ay, am, ad⟩ := a
  obtain ⟨by_, bm, bd⟩ := b
  unfold Date.valid at ha hb
  simp only at ha hb e1 e2 e3 e4 e5 e6 e7 e8
  have hy : ay = by_ := by omega
  have hm : am = bm := by omega
  have hd : ad = bd := by omega
  subst hy hm hd
  rfl

theorem Date.After_ne (t u : Date) (h : t.After u = true) : u ≠ t := by
  intro e
  rw [e, Date.After_self] at h
  cases h

theorem fromSlash_append (xs ys : List Char) (h : '/' ∉ xs) :
    fromSlash (xs ++ ys) = fromSlash ys := by
  induction xs with
  | nil => rfl
  | cons c rest ih =>
    have hc : c ≠ '/' := fun e => h (by simp [e])
    have hr : '/' ∉ rest := fun e => h (by simp [e])
    simp [fromSlash, hc, ih hr]

theorem Date.Format_no_slash (d : Date) : '/' ∉ d.Format.data := by
  unfold Date.Format pad4 pad2
  simp only [List.cons_append, List.nil_append, List.mem_cons, List.mem_singleton, not_or]
  simp only [List.not_mem_nil, not_false_eq_true, and_true]
  refine ⟨?_, ?_, ?_, ?_, by decide, ?_, ?_, by decide, ?_, ?_⟩ <;>
    exact fun e => digitChar_ne_slash _ e.symm

/-- The dated name lies in the directory of the active file. -/
theorem filepathDir_bak (p : String) (d : Date) :
    filepathDir (p ++ "." ++ d.Format) = filepathDir p := by
  unfold filepathDir
  have h : (p ++ "." ++ d.Format).data.reverse = (d.Format.data.reverse ++ ['.']) ++ p.data.reverse := by
    simp
  rw [h, fromSlash_append]
  intro hm
  simp only [List.mem_append, List.mem_reverse, List.mem_singleton] at hm
  rcases hm with hm | hm
  · exact Date.Format_no_slash d hm
  · exact absurd hm (by decide)

theorem osRename_ok_of (w : World) (old new : String) (hr : w.renameFault = none)
    (hf : w.files old ≠ none) (hd : w.dirs new = false)
    (hp : w.dirs (filepathDir new) = true) :
    osRename w old new =
      .ok { w with files := setAt (setAt w.files old none) new (w.files old) } := by
  simp [osRename, renameCheck, hr, hf, hd, hp]

theorem osOpenFile_ok_of_absent (w : World) (path : String) (ho : w.openFault = none)
    (hd : w.dirs path = false) (hf : w.files path = none)
    (hp : w.dirs (filepathDir path) = true) :
    osOpenFile w path =
      .ok ({ w with files := setAt w.files path (some ""),
                    fds := w.fds ++ [⟨path, false⟩] }, w.fds.length) := by
  simp [osOpenFile, ho, hd, hf, hp]

/-- A tick of the monitor on a stale logger calls `split`. -/
theorem fileMonitorTick_of_stale (sprintf : String → List Value → String) (w : World)
    (f : FileLogger) (hstale : isMustSplit w f = true) :
    (fileMonitorTick sprintf w f).1 = (Services.split w f).1 := by
  unfold fileMonitorTick
  rw [if_pos hstale]
  split
  · rename_i w1 f1 err heq
    rw [heq]
    split <;> rfl
  · rename_i w1 f1 heq
    rw [heq]

/-- A tick of the monitor on a logger that is not stale does nothing. -/
theorem fileMonitorTick_of_fresh (sprintf : String → List Value → String) (w : World)
    (f : FileLogger) (hfresh : isMustSplit w f = false) :
    fileMonitorTick sprintf w f = (w, f, .running) := by
  simp [fileMonitorTick, hfresh]

theorem osMkdir_files {w w1 : World} {path : String} (h : osMkdir w path = .ok w1) :
    w1.files = w.files := by
  unfold osMkdir at h
  split at h
  · cases h
  · split at h
    · cases h
    · split at h
      · injection h with h
        rw [← h]
      · cases h

theorem isExistOrCreate_files (w : World) (f : FileLogger) :
    (isExistOrCreate w f).files = w.files := by
  unfold isExistOrCreate
  split
  · rfl
  · split
    · split
      · rename_i h
        exact osMkdir_files h
      · rfl
    · rfl

theorem osOpenFile_keeps {w w2 : World} {path p : String} {h : Nat} {C : String}
    (hop : osOpenFile w path = .ok (w2, h)) (hp : w.files p = some C) :
    w2.files p = some C := by
  unfold osOpenFile at hop
  split at hop
  · cases hop
  · split at hop
    · cases hop
    · split at hop
      · injection hop with hop
        injection hop with h1 h2
        rw [← h1]
        exact hp
      · rename_i hnone
        split at hop
        · injection hop with hop
          injection hop with h1 h2
          rw [← h1]
          have hne : p ≠ path := by
            intro e
            rw [e, hnone] at hp
            cases hp
          simp [setAt, hne, hp]
        · cases hop

/-- The function `BootLogger` never rotates: whatever the world and the configuration, every
file there before the boot is there after it with the same contents. -/
theorem BootLogger_keeps_every_file (w : World) (fileLog : Option FileLogger)
    (conf : LoggerConf) (p C : String) (hp : w.files p = some C) :
    (BootLogger w fileLog conf).1.files p = some C := by
  unfold BootLogger
  simp only [isMustSplit, Date.After_self, Bool.false_eq_true, if_false]
  split
  · simp only [isExistOrCreate_files]
    exact hp
  · rename_i hop
    exact osOpenFile_keeps hop (by rw [isExistOrCreate_files]; exact hp)

/-- On every stack with two frames above the method, `Trace` captures the
second and the other three methods the first. -/
theorem captured_frames (fr1 fr2 : Frame) (rest : List Frame) :
    Method.trace.captured (fr1 :: fr2 :: rest) = (fr2.file, fr2.line) ∧
    Method.info.captured (fr1 :: fr2 :: rest) = (fr1.file, fr1.line) ∧
    Method.warn.captured (fr1 :: fr2 :: rest) = (fr1.file, fr1.line) ∧
    Method.error.captured (fr1 :: fr2 :: rest) = (fr1.file, fr1.line) :=
  ⟨rfl, rfl, rfl, rfl⟩

/-- The scenario of level `warn`: `Info("x")` leaves the queue empty and
`Warn("y")` puts one line tagged `WARN` on it. -/
theorem warn_scenario :
    Info miniSprintf (some exLogger) exCallers "x" [] = .ok exLogger ∧
    Warn miniSprintf (some exLogger) exCallers "y" [] =
      .ok { exLogger with logChan := ⟨["[WARN] [a.go:10] y"], 5000, false⟩ } := by
  decide

theorem osClose_of_get (w : World) (h : Nat) (fd : FD) (hfd : w.fds.get? h = some fd) :
    osClose w (some h) = { w with fds := w.fds.set h ⟨fd.path, true⟩ } := by
  simp only [osClose, hfd]

theorem osClose_fd (w : World) (h : Nat) (fd : FD) (hfd : w.fds.get? h = some fd) :
    (osClose w (some h)).fds.get? h = some ⟨fd.path, true⟩ := by
  rw [osClose_of_get w h fd hfd]
  have hlt : h < w.fds.length := by
    by_contra hc
    rw [List.get?_eq_none.mpr (by omega)] at hfd
    cases hfd
  simp [List.getElem?_set, hlt]

theorem osClose_idem (w : World) (file : Option Nat) :
    osClose (osClose w file) file = osClose w file := by
  cases file with
  | none => rfl
  | some h =>
    cases hfd : w.fds.get? h with
    | none =>
      have h1 : osClose w (some h) = w := by simp only [osClose, hfd]
      rw [h1, h1]
    | some fd =>
      rw [osClose_of_get _ h ⟨fd.path, true⟩ (osClose_fd w h fd hfd), osClose_of_get w h fd hfd]
      simp

/-- After a failed rename a second `split` makes the same rename in the same
world and fails in the same way. -/
theorem split_again_of_rename_error (w : World) (f : FileLogger) (err : OSError)
    (hren : osRename (osClose w f.logFile) (logFilePath f) (logFileBakPath f) = .error err) :
    Services.split (osClose w f.logFile) f = (osClose w f.logFile, f, some err) := by
  have h := split_of_rename_error (osClose w f.logFile) f err (by rw [osClose_idem]; exact hren)
  rw [osClose_idem] at h
  exact h

/-- The line `fileMonitor` queues through `Error` from line 180 of `logs.go`. -/
theorem monitor_error_line (sprintf : String → List Value → String)
    (laws : SprintfLaws sprintf) (f : FileLogger) (format : String) (v : List Value)
    (hlevel : f.logLevel ≠ .OFF) (hopen : f.logChan.closed = false)
    (hroom : f.logChan.buf.length < f.logChan.cap) :
    Error sprintf (some f) [⟨logsGo, 180⟩] format v =
      .ok { f with logChan := { f.logChan with buf := f.logChan.buf ++
        ["[ERROR] [logs.go:180] " ++ sprintf format v] } } := by
  have hpass : f.logLevel.val ≤ Method.error.level.val := by
    cases hl : f.logLevel <;> simp_all [LEVEL.val, Method.level]
  have h := call_of_pass sprintf .error f [⟨logsGo, 180⟩] format v hpass
  rw [leveled_line sprintf laws Method.error.tag _ format _ v (by decide)] at h
  have hs : "[" ++ Method.error.tag ++ "] [" ++
      filepathBase (Method.error.captured [⟨logsGo, 180⟩]).1 ++ ":" ++
      toString (Method.error.captured [⟨logsGo, 180⟩]).2 ++ "] " = "[ERROR] [logs.go:180] " := by
    decide
  rw [hs] at h
  exact h.trans (enqueue_ok f _ hopen hroom)

/-- A leveled call that passes the filter (channel open, with room) puts on
the queue exactly `[LEVEL] [F:N] ` followed by `Sprintf(format, v...)`, where
`LEVEL` is the tag of the method and `F`, `N` are the base name of the file and
the line that `runtime.Caller` gave the method; for `Info`, `Warn` and `Error`
that frame is the immediate caller.  `sprintf` is any function with the three
properties of `fmt.Sprintf` in `SprintfLaws`. -/
theorem call_renders_captured_frame
    (sprintf : String → List Value → String) (laws : SprintfLaws sprintf)
    (m : Method) (g : FileLogger) (callers : List Frame) (format : String) (v : List Value)
    (hpass : g.logLevel.val ≤ m.level.val)
    (hopen : g.logChan.closed = false) (hroom : g.logChan.buf.length < g.logChan.cap) :
    m.call sprintf (some g) callers format v =
        .ok { g with logChan := { g.logChan with buf := g.logChan.buf ++
          ["[" ++ m.tag ++ "] [" ++ filepathBase (m.captured callers).1 ++ ":"
            ++ toString (m.captured callers).2 ++ "] " ++ sprintf format v] } } ∧
      (m ≠ .trace → m.captured callers = callSite callers) := by
  constructor
  · rw [call_of_pass sprintf m g callers format v hpass,
      leveled_line sprintf laws m.tag _ format _ v (by cases m <;> decide)]
    exact enqueue_ok g _ hopen hroom
  · intro hm
    cases m
    · exact absurd rfl hm
    all_goals cases callers <;> rfl

/-! ## The claims -/

/-- C1: on a booted logger whose channel is open and has room, a leveled call
of record level R under configured level L returns having put exactly one line
at the end of the queue when `L ≤ R`, and returns with the logger unchanged
otherwise; so it enqueues if and only if `R ≥ L`, and under `OFF` no call
enqueues. -/
theorem leveled_call_enqueues_iff_level_passes
    (sprintf : String → List Value → String) (m : Method) (g : FileLogger)
    (callers : List Frame) (format : String) (v : List Value)
    (hopen : g.logChan.closed = false) (hroom : g.logChan.buf.length < g.logChan.cap) :
    ∃ g1, m.call sprintf (some g) callers format v = .ok g1 ∧
      ((∃ line, g1.logChan.buf = g.logChan.buf ++ [line]) ↔ g.logLevel.val ≤ m.level.val) ∧
      (g1 = g ↔ ¬ g.logLevel.val ≤ m.level.val) ∧
      (g.logLevel = .OFF → g1 = g) := by
  by_cases hpass : g.logLevel.val ≤ m.level.val
  · refine ⟨_, (call_of_pass sprintf m g callers format v hpass).trans
      (enqueue_ok g _ hopen hroom), ?_, ?_, ?_⟩
    · simp [hpass]
    · have hne : ∀ line, g.logChan.buf ++ [line] ≠ g.logChan.buf := by simp
      simp only [hpass, not_true, iff_false]
      intro h
      exact hne _ (congrArg (fun x => x.logChan.buf) h)
    · intro hoff
      rw [hoff] at hpass
      cases m <;> simp [LEVEL.val, Method.level] at hpass
  · refine ⟨g, call_of_fail sprintf m g callers format v hpass, ?_, ?_, ?_⟩
    · simp [hpass]
    · simp [hpass]
    · intro _; rfl

/-- Witness of C1: level `warn`, call `Warn`. -/
theorem leveled_call_enqueues_iff_level_passes_witness :
    exLogger.logChan.closed = false ∧ exLogger.logChan.buf.length < exLogger.logChan.cap ∧
    ∃ g1, Method.warn.call miniSprintf (some exLogger) exCallers "y" [] = .ok g1 ∧
      ((∃ line, g1.logChan.buf = exLogger.logChan.buf ++ [line]) ↔
        exLogger.logLevel.val ≤ Method.warn.level.val) ∧
      (g1 = exLogger ↔ ¬ exLogger.logLevel.val ≤ Method.warn.level.val) ∧
      (exLogger.logLevel = .OFF → g1 = exLogger) :=
  ⟨by decide, by decide,
    leveled_call_enqueues_iff_level_passes miniSprintf .warn exLogger exCallers "y" []
      (by decide) (by decide)⟩

/-- C2: when `BootLogger` succeeds, the logger it publishes has the level the
configured name stands for: `off`, `trace`, `warn` and `error` give their
levels, and every other string (so `info`, the empty string and `WARN`) gives
`INFO`. -/
theorem BootLogger_level_of_name (w : World) (fileLog : Option FileLogger) (conf : LoggerConf)
    (hok : (BootLogger w fileLog conf).2.2 = none) :
    ∃ f, (BootLogger w fileLog conf).2.1 = some f ∧
      f.logLevel =
        if conf.Level = "off" then LEVEL.OFF else if conf.Level = "trace" then LEVEL.TRACE
        else if conf.Level = "warn" then LEVEL.WARN
        else if conf.Level = "error" then LEVEL.ERROR
        else LEVEL.INFO := by
  rw [← bootLevel_eq]
  unfold BootLogger at hok ⊢
  simp only [isMustSplit, Date.After_self] at hok ⊢
  simp only [Bool.false_eq_true, if_false] at hok ⊢
  split at hok
  · simp at hok
  · exact ⟨_, rfl, rfl⟩

/-- Witness of C2: the name `WARN` in capitals boots a logger of level `INFO`. -/
theorem BootLogger_level_of_name_witness :
    (BootLogger exWorldBeforeBoot none ⟨"logs", "app.log", "", "WARN"⟩).2.2 = none ∧
    ∃ f, (BootLogger exWorldBeforeBoot none ⟨"logs", "app.log", "", "WARN"⟩).2.1 = some f ∧
      f.logLevel =
        if "WARN" = "off" then LEVEL.OFF else if "WARN" = "trace" then LEVEL.TRACE
        else if "WARN" = "warn" then LEVEL.WARN
        else if "WARN" = "error" then LEVEL.ERROR
        else LEVEL.INFO :=
  ⟨by decide,
    BootLogger_level_of_name exWorldBeforeBoot none ⟨"logs", "app.log", "", "WARN"⟩ (by decide)⟩

/-- C9 fails on the code for `Trace`: called at `a.go:10` from a function
called at `b.go:20` with format `disk %v` and operand 7, `Trace` queues
`[TRACE] [b.go:20] disk 7`, not the line with the caller's `a.go:10` the claim
gives; `Warn` at the same place queues `[WARN] [a.go:10] disk 7`.  The tag, the
brackets and the message after them are as the claim says. -/
theorem trace_line_has_the_callers_caller :
    callSite exCallers = ("/srv/app/a.go", 10) ∧
    Trace miniSprintf (some { exLogger with logLevel := .TRACE }) exCallers "disk %v" [.int 7] =
      .ok { exLogger with logLevel := .TRACE,
                          logChan := ⟨["[TRACE] [b.go:20] disk 7"], 5000, false⟩ } ∧
    Trace miniSprintf (some { exLogger with logLevel := .TRACE }) exCallers "disk %v" [.int 7] ≠
      .ok { exLogger with logLevel := .TRACE,
                          logChan := ⟨["[TRACE] [a.go:10] disk 7"], 5000, false⟩ } ∧
    Warn miniSprintf (some exLogger) exCallers "disk %v" [.int 7] =
      .ok { exLogger with logChan := ⟨["[WARN] [a.go:10] disk 7"], 5000, false⟩ } := by
  decide

/-- C10 fails on the code: called at `a.go:10` from a function called at
`b.go:20`, `Info`, `Warn` and `Error` render `a.go:10`, the immediate caller,
and `Trace` renders `b.go:20`, the caller of the caller, because it asks
`runtime.Caller` for frame 2 where the others ask for frame 1. -/
theorem trace_renders_the_callers_caller :
    Method.info.captured exCallers = ("/srv/app/a.go", 10) ∧
    Method.warn.captured exCallers = ("/srv/app/a.go", 10) ∧
    Method.error.captured exCallers = ("/srv/app/a.go", 10) ∧
    Method.trace.captured exCallers = ("/srv/app/b.go", 20) ∧
    Info miniSprintf (some { exLogger with logLevel := .TRACE }) exCallers "x" [] =
      .ok { exLogger with logLevel := .TRACE,
                          logChan := ⟨["[INFO] [a.go:10] x"], 5000, false⟩ } ∧
    Trace miniSprintf (some { exLogger with logLevel := .TRACE }) exCallers "x" [] =
      .ok { exLogger with logLevel := .TRACE,
                          logChan := ⟨["[TRACE] [b.go:20] x"], 5000, false⟩ } := by
  decide

/-- C3: when the tracked day is D, the active file holds C, the clock's day is
after D and `split` reports no error (its rename and its open succeeded), then
after `split` the file named with the suffix `.` and D in `YYYY-MM-DD` form
holds exactly C, the active file exists and is empty, the tracked day is the
clock's day, and the line writer is bound to a fresh open descriptor on the
active file. -/
theorem split_rotates_on_success (w : World) (f : FileLogger) (D : Date) (C : String)
    (hday : f.date = D)
    (hfile : w.files (filepathJoin f.fileDir f.fileName) = some C)
    (hstale : (today w).After D = true)
    (hok : (Services.split w f).2.2 = none) :
    (Services.split w f).1.files (filepathJoin f.fileDir f.fileName ++ "." ++ D.Format) = some C ∧
    (Services.split w f).1.files (filepathJoin f.fileDir f.fileName) = some "" ∧
    (Services.split w f).2.1.date = today w ∧
    ∃ h, (Services.split w f).2.1.logFile = some h ∧
      (Services.split w f).2.1.lg = some ⟨h, f.prefixStr⟩ ∧
      (Services.split w f).1.fds.get? h = some ⟨filepathJoin f.fileDir f.fileName, false⟩ := by
  have _ := hstale
  subst hday
  obtain ⟨w1, w2, h, hren, hop⟩ := split_ok_inv w f hok
  obtain ⟨hfiles, hfds, hh, -⟩ := split_ok_effect w w1 w2 f h hren hop
  have hne : logFilePath f ≠ logFileBakPath f := fun e => bak_ne _ _ e.symm
  rw [split_of_ok w w1 w2 f h hren hop]
  refine ⟨?_, ?_, rfl, h, rfl, rfl, ?_⟩
  · show w2.files (logFileBakPath f) = some C
    rw [hfiles]
    simp only [setAt, if_neg hne.symm, if_true]
    exact hfile
  · show w2.files (logFilePath f) = some ""
    rw [hfiles]
    simp [setAt]
  · show w2.fds.get? h = some ⟨logFilePath f, false⟩
    rw [hfds, hh, ← osClose_fds_length w f.logFile]
    simp

/-- Witness of C3: the file of 1 January is rotated on 2 January. -/
theorem split_rotates_on_success_witness :
    (exWorld "day one\n").files (filepathJoin exStaleLogger.fileDir exStaleLogger.fileName)
      = some "day one\n" ∧
    (today (exWorld "day one\n")).After ⟨2024, 1, 1⟩ = true ∧
    (Services.split (exWorld "day one\n") exStaleLogger).1.files
      (filepathJoin exStaleLogger.fileDir exStaleLogger.fileName ++ "."
        ++ (Date.mk 2024 1 1).Format) = some "day one\n" :=
  ⟨by decide, by decide,
    (split_rotates_on_success (exWorld "day one\n") exStaleLogger ⟨2024, 1, 1⟩ "day one\n"
      rfl (by decide) (by decide) (by decide)).1⟩

/-- C4: when the rename of `split` fails, `split` returns that error, the
tracked day and the line writer are as before (the whole logger is), no file
is created or changed and no descriptor is opened. -/
theorem split_rename_failure_keeps_day (w : World) (f : FileLogger) (err : OSError)
    (hren : osRename (osClose w f.logFile) (filepathJoin f.fileDir f.fileName)
      (filepathJoin f.fileDir f.fileName ++ "." ++ f.date.Format) = .error err) :
    (Services.split w f).2.2 = some err ∧
    (Services.split w f).2.1.date = f.date ∧
    (Services.split w f).2.1.lg = f.lg ∧
    (Services.split w f).2.1 = f ∧
    (Services.split w f).1.files = w.files ∧
    (Services.split w f).1.fds.length = w.fds.length := by
  rw [split_of_rename_error w f err hren]
  exact ⟨rfl, rfl, rfl, rfl, osClose_files w f.logFile, osClose_fds_length w f.logFile⟩

/-- Witness of C4: a rename refused on a read-only file system. -/
theorem split_rename_failure_keeps_day_witness :
    (Services.split (exWorldNoRename "day one\n") exStaleLogger).2.2 =
      some ⟨"rename", "logs/app.log logs/app.log.2024-01-01", .EACCES⟩ ∧
    (Services.split (exWorldNoRename "day one\n") exStaleLogger).2.1.date = exStaleLogger.date :=
  have h := split_rename_failure_keeps_day (exWorldNoRename "day one\n") exStaleLogger
    ⟨"rename", "logs/app.log logs/app.log.2024-01-01", .EACCES⟩ (by rfl)
  ⟨h.1, h.2.1⟩

/-- C8 fails on the code when the open fails: on a stale logger whose rename
succeeds and whose open is refused for want of descriptors, `split` returns the
error, the old file is no longer at the active path (it is under the dated
name), and `isMustSplit` is false at the same clock, so no later tick tries
again. -/
theorem split_open_failure_is_not_retried :
    isMustSplit (exWorldNoDescriptors "day one\n") exStaleLogger = true ∧
    (Services.split (exWorldNoDescriptors "day one\n") exStaleLogger).2.2 =
      some ⟨"open", "logs/app.log", .EMFILE⟩ ∧
    (Services.split (exWorldNoDescriptors "day one\n") exStaleLogger).1.files "logs/app.log"
      = none ∧
    (Services.split (exWorldNoDescriptors "day one\n") exStaleLogger).1.files
      "logs/app.log.2024-01-01" = some "day one\n" ∧
    isMustSplit (Services.split (exWorldNoDescriptors "day one\n") exStaleLogger).1
      (Services.split (exWorldNoDescriptors "day one\n") exStaleLogger).2.1 = false := by
  decide

/-- C8 as amended: on a stale logger, when the rename of `split` fails, `split`
returns that error with the logger unchanged, every file is as before (so the
old file is still at the active path) and `isMustSplit` is still true at the
same clock.  The next tick of `fileMonitor` therefore calls `split` again: the
second `split` makes the same rename, which fails with the same error in the
unchanged world, and the tick hands that error to `Error`; when the level is
not `OFF` and the channel is open with room, the tick ends with the line
`[ERROR] [logs.go:180] ` followed by the formatted error at the end of the
queue. -/
theorem split_rename_failure_is_retried (sprintf : String → List Value → String)
    (w : World) (f : FileLogger) (err : OSError)
    (hstale : isMustSplit w f = true)
    (hren : osRename (osClose w f.logFile) (filepathJoin f.fileDir f.fileName)
      (filepathJoin f.fileDir f.fileName ++ "." ++ f.date.Format) = .error err) :
    (Services.split w f).2.2 = some err ∧
    (Services.split w f).2.1 = f ∧
    (Services.split w f).1.files = w.files ∧
    isMustSplit (Services.split w f).1 (Services.split w f).2.1 = true ∧
    Services.split (Services.split w f).1 (Services.split w f).2.1 =
      ((Services.split w f).1, f, some err) ∧
    fileMonitorTick sprintf (Services.split w f).1 (Services.split w f).2.1 =
      (match Error sprintf (some f) [⟨logsGo, 180⟩] "Log split error: %v\n" [.err err] with
        | .ok f2 => ((Services.split w f).1, f2, .running)
        | .panic => ((Services.split w f).1, f, .recovered)
        | .blocks => ((Services.split w f).1, f, .waiting)) ∧
    (SprintfLaws sprintf → f.logLevel ≠ .OFF → f.logChan.closed = false →
      f.logChan.buf.length < f.logChan.cap →
      fileMonitorTick sprintf (Services.split w f).1 (Services.split w f).2.1 =
        ((Services.split w f).1,
         { f with logChan := { f.logChan with buf := f.logChan.buf ++
            ["[ERROR] [logs.go:180] " ++ sprintf "Log split error: %v\n" [.err err]] } },
         .running)) := by
  have hs1 := split_of_rename_error w f err hren
  have hs2 := split_again_of_rename_error w f err hren
  have hst : isMustSplit (osClose w f.logFile) f = true := by
    simpa [isMustSplit, today, osClose_now] using hstale
  have htick : fileMonitorTick sprintf (osClose w f.logFile) f =
      (match Error sprintf (some f) [⟨logsGo, 180⟩] "Log split error: %v\n" [.err err] with
        | .ok f2 => (osClose w f.logFile, f2, .running)
        | .panic => (osClose w f.logFile, f, .recovered)
        | .blocks => (osClose w f.logFile, f, .waiting)) := by
    unfold fileMonitorTick
    rw [if_pos hst, hs2]
  rw [hs1]
  refine ⟨rfl, rfl, osClose_files w f.logFile, hst, hs2, htick, ?_⟩
  intro laws hlevel hopen hroom
  show fileMonitorTick sprintf (osClose w f.logFile) f = _
  rw [htick, monitor_error_line sprintf laws f _ _ hlevel hopen hroom]

/-- Witness of C8 as amended: a rename refused on a read-only file system; the
next tick queues the error line. -/
theorem split_rename_failure_is_retried_witness :
    isMustSplit (exWorldNoRename "day one\n") exStaleLogger = true ∧
    (Services.split (exWorldNoRename "day one\n") exStaleLogger).1.files =
      (exWorldNoRename "day one\n").files ∧
    isMustSplit (Services.split (exWorldNoRename "day one\n") exStaleLogger).1
      (Services.split (exWorldNoRename "day one\n") exStaleLogger).2.1 = true ∧
    fileMonitorTick miniSprintf (Services.split (exWorldNoRename "day one\n") exStaleLogger).1
        (Services.split (exWorldNoRename "day one\n") exStaleLogger).2.1 =
      ((Services.split (exWorldNoRename "day one\n") exStaleLogger).1,
       { exStaleLogger with logChan := { exStaleLogger.logChan with
          buf := exStaleLogger.logChan.buf ++
            ["[ERROR] [logs.go:180] " ++ miniSprintf "Log split error: %v\n"
              [.err ⟨"rename", "logs/app.log logs/app.log.2024-01-01", .EACCES⟩]] } },
       .running) :=
  have h := split_rename_failure_is_retried miniSprintf (exWorldNoRename "day one\n")
    exStaleLogger ⟨"rename", "logs/app.log logs/app.log.2024-01-01", .EACCES⟩
    (by decide) (by rfl)
  ⟨by decide, h.2.2.1, h.2.2.2.1,
    h.2.2.2.2.2.2 miniSprintf_laws (by decide) (by decide) (by decide)⟩

/-- C6 fails on the code: booting on 2 January 2024 over an active file left
from the day before rotates nothing.  `BootLogger` sets the tracked day to
today before it asks `isMustSplit`, so it opens the old file for appending:
the active file still holds the old content and no dated file exists. -/
theorem boot_does_not_rotate_stale_file :
    (BootLogger exWorldBeforeBoot none ⟨"logs", "app.log", "", "info"⟩).2.2 = none ∧
    (BootLogger exWorldBeforeBoot none ⟨"logs", "app.log", "", "info"⟩).1.files
      "logs/app.log" = some "old content" ∧
    (BootLogger exWorldBeforeBoot none ⟨"logs", "app.log", "", "info"⟩).1.files
      "logs/app.log.2024-01-01" = none ∧
    (BootLogger exWorldBeforeBoot none ⟨"logs", "app.log", "", "info"⟩).2.1.map
      (fun f => f.date) = some ⟨2024, 1, 2⟩ := by
  decide

/-- C7 fails on the code: after a first `split` on 2 January 2024 a second
`split` at the same clock is not a no-op.  It renames the fresh active file to
`app.log.2024-01-02`, a file the first call had not made, and opens a third
descriptor, so the file system is not as the first call left it. -/
theorem second_split_is_not_a_noop :
    isMustSplit (exWorld "day one\n") exStaleLogger = true ∧
    (Services.split (exWorld "day one\n") exStaleLogger).2.2 = none ∧
    (Services.split (exWorld "day one\n") exStaleLogger).1.files "logs/app.log.2024-01-02"
      = none ∧
    (splitTwice (exWorld "day one\n") exStaleLogger).2.2 = none ∧
    (splitTwice (exWorld "day one\n") exStaleLogger).1.files "logs/app.log.2024-01-02"
      = some "" ∧
    (splitTwice (exWorld "day one\n") exStaleLogger).1.files ≠
      (Services.split (exWorld "day one\n") exStaleLogger).1.files ∧
    (Services.split (exWorld "day one\n") exStaleLogger).1.fds.length = 2 ∧
    (splitTwice (exWorld "day one\n") exStaleLogger).1.fds.length = 3 := by
  refine ⟨by decide, by decide, by decide, by decide, by decide, ?_, by decide, by decide⟩
  intro h
  have h2 := congrFun h "logs/app.log.2024-01-02"
  revert h2
  decide

/-- C7 as amended: let a first `split` succeed on a stale logger whose active
file holds C, the days being calendar days, with no directory at the name
dated with the clock's day.  Then `isMustSplit` is false at the same clock and
a tick of `fileMonitor` there does nothing: world and logger stay as the first
call left them.  A second `split` at the same clock is not a no-op: it
succeeds and rotates again, moving the fresh empty active file to the name
dated with the clock's day and opening another empty active file on one more
descriptor.  The tracked day stays the clock's day and the file rotated by the
first call still holds C. -/
theorem second_split_rotates_again (sprintf : String → List Value → String)
    (w : World) (f : FileLogger) (C : String)
    (hD : f.date.valid) (hT : (today w).valid)
    (hfile : w.files (filepathJoin f.fileDir f.fileName) = some C)
    (hstale : isMustSplit w f = true)
    (hok : (Services.split w f).2.2 = none)
    (hnodir : w.dirs (filepathJoin f.fileDir f.fileName ++ "." ++ (today w).Format) = false) :
    isMustSplit (Services.split w f).1 (Services.split w f).2.1 = false ∧
    fileMonitorTick sprintf (Services.split w f).1 (Services.split w f).2.1 =
      ((Services.split w f).1, (Services.split w f).2.1, .running) ∧
    (splitTwice w f).2.2 = none ∧
    (splitTwice w f).1.fds.length = (Services.split w f).1.fds.length + 1 ∧
    (Services.split w f).1.files (filepathJoin f.fileDir f.fileName) = some "" ∧
    (splitTwice w f).1.files (filepathJoin f.fileDir f.fileName ++ "." ++ (today w).Format)
      = some "" ∧
    (splitTwice w f).1.files (filepathJoin f.fileDir f.fileName) = some "" ∧
    (splitTwice w f).1.files (filepathJoin f.fileDir f.fileName ++ "." ++ f.date.Format)
      = some C ∧
    (splitTwice w f).2.1.date = today w := by
  obtain ⟨w1, w2, h, hren, hop⟩ := split_ok_inv w f hok
  obtain ⟨hfiles, hfds, hh, hdirs, hnow, hrf, hof, hdl, hdp, hdb, hdbp⟩ :=
    split_ok_effect w w1 w2 f h hren hop
  have hs1 := split_of_ok w w1 w2 f h hren hop
  have hne1 : logFilePath f ≠ logFileBakPath f := fun e => bak_ne _ _ e.symm
  have hne2 : logFilePath f ≠ logFilePath f ++ "." ++ (today w).Format :=
    fun e => bak_ne _ _ e.symm
  have hne3 : logFileBakPath f ≠ logFilePath f ++ "." ++ (today w).Format := by
    intro e
    have e2 : f.date.Format = (today w).Format := by
      have e3 := congrArg String.data e
      simp only [logFileBakPath, String.data_append, List.append_assoc] at e3
      exact String.ext (List.append_cancel_left (List.append_cancel_left e3))
    exact Date.After_ne _ _ hstale (Date.Format_inj _ _ hD hT e2)
  have htoday2 : today w2 = today w := by simp [today, hnow]
  have hfresh : isMustSplit (Services.split w f).1 (Services.split w f).2.1 = false := by
    rw [hs1]
    simp [isMustSplit, htoday2, Date.After_self]
  have hlf : w2.files (logFilePath f) = some "" := by
    rw [hfiles]
    simp [setAt]
  -- the second call: its rename and its open succeed
  have hren2 := osRename_ok_of (osClose w2 (some h)) (logFilePath f)
    (logFilePath f ++ "." ++ (today w).Format)
    (by rw [osClose_renameFault]; exact hrf)
    (by rw [osClose_files, hlf]; simp)
    (by rw [osClose_dirs, hdirs]; exact hnodir)
    (by rw [osClose_dirs, hdirs, filepathDir_bak]; exact hdp)
  have hop2 := osOpenFile_ok_of_absent
    { osClose w2 (some h) with
      files := setAt (setAt (osClose w2 (some h)).files (logFilePath f) none)
        (logFilePath f ++ "." ++ (today w).Format) ((osClose w2 (some h)).files (logFilePath f)) }
    (logFilePath f)
    (by show (osClose w2 (some h)).openFault = none
        rw [osClose_openFault]; exact hof)
    (by show (osClose w2 (some h)).dirs (logFilePath f) = false
        rw [osClose_dirs, hdirs]; exact hdl)
    (by simp [setAt, hne2])
    (by show (osClose w2 (some h)).dirs (filepathDir (logFilePath f)) = true
        rw [osClose_dirs, hdirs]; exact hdp)
  have hs2 := split_of_ok w2 _ _
    { f with date := today w, logFile := some h, lg := some ⟨h, f.prefixStr⟩ } _ hren2 hop2
  have htwice : splitTwice w f = Services.split w2
      { f with date := today w, logFile := some h, lg := some ⟨h, f.prefixStr⟩ } := by
    unfold splitTwice
    rw [hs1]
  have hlp : filepathJoin f.fileDir f.fileName = logFilePath f := rfl
  simp only [hlp] at hfile ⊢
  have htick := fileMonitorTick_of_fresh sprintf _ _ hfresh
  have hlf1 : (Services.split w f).1.files (logFilePath f) = some "" := by
    rw [hs1]
    exact hlf
  have hlen1 : (Services.split w f).1.fds.length = w2.fds.length := by rw [hs1]
  rw [htwice, hs2]
  refine ⟨hfresh, htick, rfl, ?_, hlf1, ?_, ?_, ?_, htoday2⟩
  · rw [hlen1]
    show (_ ++ [_]).length = _
    rw [List.length_append, osClose_fds_length]
    rfl
  · show setAt _ _ _ _ = _
    simp [setAt, hne2.symm, osClose_files, hlf]
  · show setAt _ _ _ _ = _
    simp [setAt]
  · show setAt _ _ _ _ = _
    have hb : w2.files (logFileBakPath f) = some C := by
      rw [hfiles]
      simp only [setAt, if_neg hne1.symm, if_true]
      exact hfile
    have hb1 : logFilePath f ++ "." ++ f.date.Format = logFileBakPath f := rfl
    simp only [setAt, osClose_files, hb1]
    rw [if_neg hne1.symm, if_neg hne3, if_neg hne1.symm]
    exact hb

/-- Witness of C7 as amended: the rotation of 2 January 2024 done twice. -/
theorem second_split_rotates_again_witness :
    isMustSplit (exWorld "day one\n") exStaleLogger = true ∧
    isMustSplit (Services.split (exWorld "day one\n") exStaleLogger).1
      (Services.split (exWorld "day one\n") exStaleLogger).2.1 = false ∧
    (splitTwice (exWorld "day one\n") exStaleLogger).2.2 = none :=
  have h := second_split_rotates_again miniSprintf (exWorld "day one\n") exStaleLogger
    "day one\n" (by decide) (by decide) (by decide) (by decide) (by decide) (by decide)
  ⟨by decide, h.1, h.2.2.1⟩

/-- C5 fails on the code: with the record `r1` queued when `CloseLogger` is
called, the consumer that runs after the close takes `r1` from the channel,
panics on the nil line writer and ends; the active file is as empty as before
and `r1` is never written.  Without the close the same consumer writes it. -/
theorem close_then_drain_loses_the_queue :
    exQueuedLogger.logChan.buf = ["r1"] ∧
    (exWorld "").files "logs/app.log" = some "" ∧
    (closeThenDrain 3 (exWorld "") exQueuedLogger).map
        (fun r => (r.1.files "logs/app.log", r.2.1.logChan.buf, r.2.2))
      = some (some "", [], .recovered) ∧
    (logWriter 3 (exWorld "") exQueuedLogger).1.files "logs/app.log"
      = some "2024/01/02 10:00:00.000005 r1\n" := by
  decide

/-- C5 as amended: for every booted logger whose channel is still open,
`CloseLogger` closes the channel, sets the line writer to nil and closes the
descriptor of the file, leaving every file as it was; the consumer that runs
after it ends in its first iteration, whatever number of iterations it is
allowed: it takes the oldest queued record (or the zero value of an empty
queue), panics on the nil line writer and recovers.  Nothing is written: the
world is the one `CloseLogger` left and the records after the first stay in
the queue. -/
theorem close_then_drain_writes_nothing (w : World) (g : FileLogger) (fuel : Nat)
    (hopen : g.logChan.closed = false) :
    ∃ w1 g1, CloseLogger w (some g) = .ok (w1, some g1) ∧
      g1.logChan.closed = true ∧ g1.lg = none ∧ g1.logChan.buf = g.logChan.buf ∧
      g1 = { g with logChan := { g.logChan with closed := true }, lg := none } ∧
      w1 = osClose w g.logFile ∧
      (∀ h fd, g.logFile = some h → w.fds.get? h = some fd →
        w1.fds.get? h = some ⟨fd.path, true⟩) ∧
      w1.fds.length = w.fds.length ∧
      w1.files = w.files ∧
      closeThenDrain (fuel + 1) w g =
        some (w1, { g1 with logChan := { g1.logChan with buf := g.logChan.buf.tail } },
          .recovered) := by
  refine ⟨osClose w g.logFile,
    { g with logChan := { g.logChan with closed := true }, lg := none },
    ?_, rfl, rfl, rfl, rfl, rfl, ?_, osClose_fds_length w g.logFile,
    osClose_files w g.logFile, ?_⟩
  · simp [CloseLogger, hopen]
  · intro h fd hg hfd
    rw [hg]
    exact osClose_fd w h fd hfd
  · simp only [closeThenDrain, CloseLogger, hopen, Bool.false_eq_true, if_false, logWriter,
      chanRecv]
    cases g.logChan.buf <;> simp

/-- Witness of C5 as amended: the queue holds `r1` at the close and
descriptor 0 is open on the active file. -/
theorem close_then_drain_writes_nothing_witness :
    exQueuedLogger.logChan.closed = false ∧
    ∃ w1 g1, CloseLogger (exWorld "") (some exQueuedLogger) = .ok (w1, some g1) ∧
      g1.logChan.closed = true ∧ g1.lg = none ∧
      g1.logChan.buf = exQueuedLogger.logChan.buf ∧
      g1 = { exQueuedLogger with
        logChan := { exQueuedLogger.logChan with closed := true }, lg := none } ∧
      w1 = osClose (exWorld "") exQueuedLogger.logFile ∧
      (∀ h fd, exQueuedLogger.logFile = some h → (exWorld "").fds.get? h = some fd →
        w1.fds.get? h = some ⟨fd.path, true⟩) ∧
      w1.fds.length = (exWorld "").fds.length ∧
      w1.files = (exWorld "").files ∧
      closeThenDrain (2 + 1) (exWorld "") exQueuedLogger =
        some (w1, { g1 with logChan :=
          { g1.logChan with buf := exQueuedLogger.logChan.buf.tail } }, .recovered) :=
  ⟨by decide, close_then_drain_writes_nothing (exWorld "") exQueuedLogger 2 (by decide)⟩

end Services
